import Mathlib

/-!
Shallow embedding of the fanotify filesystem monitor (src/src/main.rs)
and verification of the specification claims about it.

The embedding models, byte-exactly, the pieces of main that the claims
are about:
* the fanotify constants (lines 5-16);
* the wire-format header FanotifyEventMetadata (lines 19-29) decoded
  little-endian from the read buffer, as the repr(C) pointer overlay on
  x86_64 does (lines 363-365);
* per-record decoding: mask-bit classification into event kinds
  (lines 404-439), path resolution with fd fallback (lines 382-400), and
  the descriptor close (lines 456-460);
* the inner parse loop over the buffer of one read with its running
  offset (lines 356-466), made total with an explicit fuel argument:
  stalled marks the executions on which the Rust loop never terminates;
* the outer read loop and its errno classification (lines 324-351);
* the mark-registration sequence with its metadata-focused mask, its
  fallback mask, the experimental directory mark, and the session close
  on complete failure (lines 168-260).

Buffers are lists of bytes (List Nat, little-endian fields); fallible
external effects (fanotify_mark results, readlink-based path resolution,
read results) are oracle parameters.
-/

-- fanotify constants (src/src/main.rs lines 5-16)
def FAN_CLASS_NOTIF : Nat := 0

def FAN_CLOEXEC : Nat := 1

def FAN_OPEN : Nat := 1

def FAN_CLOSE_WRITE : Nat := 8

def FAN_MODIFY : Nat := 2

def FAN_ATTRIB : Nat := 4

def FAN_MARK_ADD : Nat := 1

def FAN_MARK_ONLYDIR : Nat := 8

def AT_FDCWD : Int := -100

-- Linux x86_64 errno values used by the read loop (lines 333, 337)
def EINTR : Int := 4

def EAGAIN : Int := 11

/-- Wire-format header, mirroring struct FanotifyEventMetadata
(src/src/main.rs lines 19-29): u32 event_len, u8 vers, u8 reserved,
u16 metadata_len, u64 mask, i32 fd, i32 pid. -/
structure FanotifyEventMetadata where
  event_len : Nat
  vers : Nat
  reserved : Nat
  metadata_len : Nat
  mask : Nat
  fd : Int
  pid : Int
deriving DecidableEq, Repr

/-- Size of the repr(C) header on x86_64: field offsets 0,4,5,6,8,16,20,
total 24 bytes. -/
def headerSize : Nat := 24

/-- Byte at index i of the read buffer (0 past the end; the parser only
reads indices it has bounds-checked, see parseStep and the take lemmas). -/
def getByte (buf : List Nat) (i : Nat) : Nat :=
  buf.getD i 0

/-- Little-endian value of k bytes starting at off, as the x86_64
struct overlay at lines 363-365 reads multi-byte fields. -/
def readLE (buf : List Nat) (off : Nat) : Nat → Nat
  | 0 => 0
  | Nat.succ k => getByte buf off + 256 * readLE buf (off + 1) k

/-- Reinterpretation of a 4-byte little-endian value as a signed i32. -/
def toI32 (v : Nat) : Int :=
  if v % 2 ^ 32 < 2 ^ 31 then ((v % 2 ^ 32 : Nat) : Int)
  else ((v % 2 ^ 32 : Nat) : Int) - 2 ^ 32

/-- Decoding of the fixed-layout header at off, field by field at its
repr(C) x86_64 offset (struct overlay, lines 363-365). -/
def decodeMetadata (buf : List Nat) (off : Nat) : FanotifyEventMetadata :=
  { event_len := readLE buf off 4
    vers := getByte buf (off + 4)
    reserved := getByte buf (off + 5)
    metadata_len := readLE buf (off + 6) 2
    mask := readLE buf (off + 8) 8
    fd := toI32 (readLE buf (off + 16) 4)
    pid := toI32 (readLE buf (off + 20) 4) }

/-- The event kinds the decoder knows (lines 407-431): ATTRIB, OPEN,
MODIFY, CLOSE_WRITE. The source defines no other kind. -/
inductive EventKind where
  | ATTRIB
  | OPEN
  | MODIFY
  | CLOSE_WRITE
deriving DecidableEq, Repr, BEq

/-- Kind classification of the mask of a record: each known bit tested
independently, pushed in source order ATTRIB, OPEN, MODIFY, CLOSE_WRITE
(the event_types vector, lines 404-431). -/
def decodeKinds (mask : Nat) : List EventKind :=
  (if mask &&& FAN_ATTRIB ≠ 0 then [EventKind.ATTRIB] else []) ++
  (if mask &&& FAN_OPEN ≠ 0 then [EventKind.OPEN] else []) ++
  (if mask &&& FAN_MODIFY ≠ 0 then [EventKind.MODIFY] else []) ++
  (if mask &&& FAN_CLOSE_WRITE ≠ 0 then [EventKind.CLOSE_WRITE] else [])

/-- Decoded, caller-facing event: pid, the matched kinds, and the
path-or-fallback string printed in the event summary. -/
structure Event where
  pid : Int
  kinds : List EventKind
  pathInfo : String
deriving DecidableEq, Repr

/-- Externally visible per-record actions on the subject descriptor:
the readlink resolution attempt (line 386) and the close (line 458). -/
inductive RecordAction where
  | resolveFd (fd : Int)
  | closeFd (fd : Int)
deriving DecidableEq, Repr

/-- Path info for a record (lines 382-400): when fd is non-negative,
attempt /proc/self/fd resolution (oracle resolve), falling back to the
raw fd value on failure; otherwise report unknown. -/
def pathInfoOf (resolve : Int → Option String) (fd : Int) : String :=
  if fd ≥ 0 then
    match resolve fd with
    | some p => "path=" ++ p
    | none => "fd=" ++ toString fd
  else "path=unknown"

/-- Processing of one decoded record (lines 374-460): resolve the
subject path (iff fd is non-negative), classify the mask into kinds,
then close the descriptor (iff fd is non-negative). Returns the single
decoded event and the ordered descriptor actions. -/
def processRecord (resolve : Int → Option String) (md : FanotifyEventMetadata) :
    Event × List RecordAction :=
  ({ pid := md.pid
     kinds := decodeKinds md.mask
     pathInfo := pathInfoOf resolve md.fd },
   (if md.fd ≥ 0 then [RecordAction.resolveFd md.fd] else []) ++
   (if md.fd ≥ 0 then [RecordAction.closeFd md.fd] else []))

/-- Result of one step of the inner parse loop: loop exit, silent break
on an incomplete header, or one decoded event plus the next offset. -/
inductive StepRes where
  | finished
  | incomp
  | next (e : Event) (off : Nat)
deriving DecidableEq, Repr

/-- One step of the inner parse loop at off over n read bytes
(lines 356-365, 465): loop exit when off has reached n; silent break
when the 24-byte header does not fit in the bytes read; otherwise decode
the record and advance by its self-reported event_len. -/
def parseStep (resolve : Int → Option String) (buf : List Nat) (n off : Nat) : StepRes :=
  if off < n then
    if off + headerSize > n then StepRes.incomp
    else
      let md := decodeMetadata buf off
      StepRes.next (processRecord resolve md).1 (off + md.event_len)
  else StepRes.finished

/-- How the parse of one buffer ended: normal (offset reached the bytes
read), incomplete (header did not fit: the silent break at line 360), or
stalled (fuel exhausted: the Rust while-loop never terminates, which
happens exactly when some record advances the offset by zero). -/
inductive ExitKind where
  | normal
  | incomplete
  | stalled
deriving DecidableEq, Repr

/-- Fuel-indexed inner parse loop (lines 356-466). -/
def parseLoop (resolve : Int → Option String) (buf : List Nat) (n : Nat) :
    Nat → Nat → List Event × ExitKind
  | 0, _ => ([], ExitKind.stalled)
  | Nat.succ fuel, off =>
    match parseStep resolve buf n off with
    | StepRes.finished => ([], ExitKind.normal)
    | StepRes.incomp => ([], ExitKind.incomplete)
    | StepRes.next e off2 =>
      let r := parseLoop resolve buf n fuel off2
      (e :: r.1, r.2)

/-- Parse of the buffer of one read. Fuel d.length + 1 is exhausted only
when some step advances the offset by zero, i.e. exactly when the source
loop diverges. -/
def parseBuffer (resolve : Int → Option String) (d : List Nat) : List Event × ExitKind :=
  parseLoop resolve d d.length (d.length + 1) 0

/-- Result of one blocking read (line 326): an errno or the bytes read. -/
inductive ReadResult where
  | rerr (e : Int)
  | rbytes (d : List Nat)
deriving DecidableEq, Repr

/-- How the modelled read loop left a finite prefix of reads: still
running (pending), terminated by a non-transient errno (fatal), or
diverged inside a buffer parse (stalled). -/
inductive LoopExit where
  | pending
  | fatal (e : Int)
  | stalled
deriving DecidableEq, Repr

/-- The outer read loop (lines 324-467) over a finite prefix of read
results: EINTR and EAGAIN are retried (continue), any other errno breaks
the loop, a zero-byte read is retried, and a non-empty buffer is handed
to the inner parse loop. -/
def readLoop (resolve : Int → Option String) : List ReadResult → List Event × LoopExit
  | [] => ([], LoopExit.pending)
  | ReadResult.rerr e :: rest =>
    if e = EINTR then readLoop resolve rest
    else if e = EAGAIN then readLoop resolve rest
    else ([], LoopExit.fatal e)
  | ReadResult.rbytes d :: rest =>
    if d.length = 0 then readLoop resolve rest
    else
      let pr := parseBuffer resolve d
      match pr.2 with
      | ExitKind.stalled => (pr.1, LoopExit.stalled)
      | _ =>
        let p := readLoop resolve rest
        (pr.1 ++ p.1, p.2)

/-- A read outcome the loop retries internally (lines 333-339). -/
def isTransientErr : ReadResult → Bool
  | ReadResult.rerr e => (e == EINTR) || (e == EAGAIN)
  | ReadResult.rbytes _ => false

/-- Offset a parse step continues at, if it continues. -/
def stepOffsetOf : StepRes → Option Nat
  | StepRes.next _ o => some o
  | _ => none

/-- Number of close actions on descriptor fd in a record trace. -/
def countCloses (fd : Int) : List RecordAction → Nat
  | [] => 0
  | RecordAction.closeFd g :: rest => (if g = fd then 1 else 0) + countCloses fd rest
  | _ :: rest => countCloses fd rest

-- Registration sequence (lines 168-260)

def mask_metadata_focused : Nat := FAN_ATTRIB ||| FAN_OPEN ||| FAN_CLOSE_WRITE

def mask_fallback : Nat := FAN_OPEN ||| FAN_MODIFY ||| FAN_CLOSE_WRITE

def testFilePath : String := "/tmp/fanotify_test_file.txt"

def tmpDirPath : String := "/tmp"

/-- Externally visible actions of the registration sequence. -/
inductive SetupAction where
  | markCall (flags mask : Nat) (path : String)
  | closeFd (fd : Int)
deriving DecidableEq, Repr

/-- The mark-registration sequence of main (lines 187-260), over an
oracle mark giving each fanotify_mark call outcome (errno on failure).
Mirrors the source: try the metadata-focused mask on the test file; on
failure retry with the fallback mask, closing the session fd and
returning the errno if that fails too; on fallback success attempt
the experimental directory-level FAN_ATTRIB mark on /tmp, which only
widens the reported actual mask. Returns the resulting actual mask (or
the fatal errno) and the action trace. -/
def setupMarks (fanFd : Int) (mark : Nat → Nat → String → Except Int Unit) :
    Except Int Nat × List SetupAction :=
  match mark FAN_MARK_ADD mask_metadata_focused testFilePath with
  | Except.ok _ =>
    (Except.ok mask_metadata_focused,
     [SetupAction.markCall FAN_MARK_ADD mask_metadata_focused testFilePath])
  | Except.error _ =>
    match mark FAN_MARK_ADD mask_fallback testFilePath with
    | Except.error e2 =>
      (Except.error e2,
       [SetupAction.markCall FAN_MARK_ADD mask_metadata_focused testFilePath,
        SetupAction.markCall FAN_MARK_ADD mask_fallback testFilePath,
        SetupAction.closeFd fanFd])
    | Except.ok _ =>
      match mark (FAN_MARK_ADD ||| FAN_MARK_ONLYDIR) FAN_ATTRIB tmpDirPath with
      | Except.ok _ =>
        (Except.ok (mask_fallback ||| FAN_ATTRIB),
         [SetupAction.markCall FAN_MARK_ADD mask_metadata_focused testFilePath,
          SetupAction.markCall FAN_MARK_ADD mask_fallback testFilePath,
          SetupAction.markCall (FAN_MARK_ADD ||| FAN_MARK_ONLYDIR) FAN_ATTRIB tmpDirPath])
      | Except.error _ =>
        (Except.ok mask_fallback,
         [SetupAction.markCall FAN_MARK_ADD mask_metadata_focused testFilePath,
          SetupAction.markCall FAN_MARK_ADD mask_fallback testFilePath,
          SetupAction.markCall (FAN_MARK_ADD ||| FAN_MARK_ONLYDIR) FAN_ATTRIB tmpDirPath])

/-- Whole setup as main runs it: check_kernel_version (lines 50-66) only
prints the /proc/version string, so the registration outcome is a
function of the mark oracle alone; the kernel-version string is an
ignored input. -/
def programSetup (_procVersion : String) (fanFd : Int)
    (mark : Nat → Nat → String → Except Int Unit) :
    Except Int Nat × List SetupAction :=
  setupMarks fanFd mark

/-- Resolution oracle that always fails. -/
def resolveNone : Int → Option String := fun _ => none

/-- A 24-byte buffer holding one record whose event_len is 0. -/
def c1buf : List Nat := List.replicate 24 0

/-- A 32-byte buffer holding one record with event_len 100 (extent far
past the bytes read), mask FAN_OPEN, fd -1. -/
def c2buf : List Nat :=
  [100, 0, 0, 0, 3, 0, 24, 0,
   1, 0, 0, 0, 0, 0, 0, 0,
   255, 255, 255, 255, 0, 0, 0, 0,
   0, 0, 0, 0, 0, 0, 0, 0]

/-- A 24-byte buffer holding one well-formed record with mask
FAN_MODIFY, fd 7, pid 1337. -/
def c7buf : List Nat :=
  [24, 0, 0, 0, 3, 0, 24, 0,
   2, 0, 0, 0, 0, 0, 0, 0,
   7, 0, 0, 0, 57, 5, 0, 0]

/-- A well-formed record carrying a valid descriptor 5. -/
def mdC4 : FanotifyEventMetadata :=
  { event_len := 24, vers := 3, reserved := 0, metadata_len := 24, mask := 1, fd := 5, pid := 100 }

/-- A record whose mask is FAN_MODIFY only. -/
def mdC8 : FanotifyEventMetadata :=
  { event_len := 24, vers := 3, reserved := 0, metadata_len := 24, mask := 2, fd := -1, pid := 0 }

/-- A record whose mask holds only a bit unknown to the decoder. -/
def mdC8b : FanotifyEventMetadata :=
  { event_len := 24, vers := 3, reserved := 0, metadata_len := 24, mask := 16, fd := -1, pid := 0 }

/-- Mark oracle rejecting exactly the metadata-focused mask. -/
def markFailMeta : Nat → Nat → String → Except Int Unit :=
  fun _ m _ => if m = mask_metadata_focused then Except.error 22 else Except.ok ()

/-- Mark oracle rejecting every call. -/
def markFailAll : Nat → Nat → String → Except Int Unit :=
  fun _ _ _ => Except.error 1

-- Helper lemmas

/-- Testing one mask bit by bitwise and, as the source does, agrees with
Nat.testBit. -/
theorem and_bit_ne_iff (mask i : Nat) : mask &&& 2 ^ i ≠ 0 ↔ mask.testBit i = true := by
  rw [Nat.and_two_pow]
  cases h : mask.testBit i <;> simp

theorem and_attrib_iff (mask : Nat) : mask &&& FAN_ATTRIB ≠ 0 ↔ mask.testBit 2 = true := by
  exact and_bit_ne_iff mask 2

theorem and_open_iff (mask : Nat) : mask &&& FAN_OPEN ≠ 0 ↔ mask.testBit 0 = true := by
  exact and_bit_ne_iff mask 0

theorem and_modify_iff (mask : Nat) : mask &&& FAN_MODIFY ≠ 0 ↔ mask.testBit 1 = true := by
  exact and_bit_ne_iff mask 1

theorem and_cw_iff (mask : Nat) : mask &&& FAN_CLOSE_WRITE ≠ 0 ↔ mask.testBit 3 = true := by
  exact and_bit_ne_iff mask 3

/-- The kind classification, rephrased through Nat.testBit. -/
theorem decodeKinds_eq_testBit (mask : Nat) : decodeKinds mask =
    (if mask.testBit 2 = true then [EventKind.ATTRIB] else []) ++
    (if mask.testBit 0 = true then [EventKind.OPEN] else []) ++
    (if mask.testBit 1 = true then [EventKind.MODIFY] else []) ++
    (if mask.testBit 3 = true then [EventKind.CLOSE_WRITE] else []) := by
  unfold decodeKinds
  simp only [and_attrib_iff, and_open_iff, and_modify_iff, and_cw_iff]

/-- Membership in the decoded kind list is exactly the corresponding
mask bit, for each of the four known kinds. -/
theorem mem_decodeKinds (mask : Nat) :
    (EventKind.ATTRIB ∈ decodeKinds mask ↔ mask.testBit 2 = true) ∧
    (EventKind.OPEN ∈ decodeKinds mask ↔ mask.testBit 0 = true) ∧
    (EventKind.MODIFY ∈ decodeKinds mask ↔ mask.testBit 1 = true) ∧
    (EventKind.CLOSE_WRITE ∈ decodeKinds mask ↔ mask.testBit 3 = true) := by
  rw [decodeKinds_eq_testBit]
  cases h2 : mask.testBit 2 <;> cases h0 : mask.testBit 0 <;>
    cases h1 : mask.testBit 1 <;> cases h3 : mask.testBit 3 <;> simp

theorem getByte_take (buf : List Nat) (n i : Nat) (h : i < n) :
    getByte (List.take n buf) i = getByte buf i := by
  induction buf generalizing n i with
  | nil => simp [getByte]
  | cons a l ih =>
    cases n with
    | zero => omega
    | succ m =>
      cases i with
      | zero => simp [getByte]
      | succ j =>
        simp only [List.take, getByte, List.getD_cons_succ]
        exact ih m j (by omega)

theorem readLE_take (buf : List Nat) (n : Nat) :
    ∀ k off, off + k ≤ n → readLE (List.take n buf) off k = readLE buf off k := by
  intro k
  induction k with
  | zero => intro off h; rfl
  | succ m ih =>
    intro off h
    simp only [readLE]
    rw [getByte_take buf n off (by omega), ih (off + 1) (by omega)]

/-- Header decoding reads only bytes the source loop has bounds-checked:
it is unchanged on the truncation to the n bytes actually read. -/
theorem decodeMetadata_take (buf : List Nat) (n off : Nat) (h : off + headerSize ≤ n) :
    decodeMetadata (List.take n buf) off = decodeMetadata buf off := by
  unfold decodeMetadata headerSize at *
  rw [readLE_take buf n 4 off (by omega), readLE_take buf n 2 (off + 6) (by omega),
    readLE_take buf n 8 (off + 8) (by omega), readLE_take buf n 4 (off + 16) (by omega),
    readLE_take buf n 4 (off + 20) (by omega)]
  rw [show getByte (List.take n buf) (off + 4) = getByte buf (off + 4) from
    getByte_take buf n (off + 4) (by omega)]
  rw [show getByte (List.take n buf) (off + 5) = getByte buf (off + 5) from
    getByte_take buf n (off + 5) (by omega)]

theorem parseStep_take (resolve : Int → Option String) (buf : List Nat) (n off : Nat) :
    parseStep resolve (List.take n buf) n off = parseStep resolve buf n off := by
  unfold parseStep
  by_cases h1 : off < n
  · by_cases h2 : off + headerSize > n
    · simp [h1, h2]
    · have h3 : off + headerSize ≤ n := by omega
      simp [h1, h2, decodeMetadata_take buf n off h3]
  · simp [h1]

/-- The whole parse of a buffer depends only on the n bytes actually
read: no byte outside them is ever accessed. -/
theorem parseLoop_take (resolve : Int → Option String) (buf : List Nat) (n : Nat) :
    ∀ fuel off, parseLoop resolve (List.take n buf) n fuel off =
      parseLoop resolve buf n fuel off := by
  intro fuel
  induction fuel with
  | zero => intro off; rfl
  | succ f ih =>
    intro off
    simp only [parseLoop, parseStep_take]
    cases parseStep resolve buf n off with
    | finished => rfl
    | incomp => rfl
    | next e off2 => simp [ih off2]

/-- A record with a zero self-reported length is decoded normally and
leaves the offset where it was. -/
theorem parseStep_zero_len (resolve : Int → Option String) (buf : List Nat) (n off : Nat)
    (h1 : off + headerSize ≤ n) (h2 : (decodeMetadata buf off).event_len = 0) :
    parseStep resolve buf n off =
      StepRes.next (processRecord resolve (decodeMetadata buf off)).1 off := by
  unfold parseStep
  have hlt : off < n := by unfold headerSize at h1; omega
  have hng : ¬ off + headerSize > n := by omega
  simp [hlt, hng, h2]

/-- A step that does not move the offset makes the parse loop exhaust
any amount of fuel: the source loop never terminates. -/
theorem parseLoop_stall (resolve : Int → Option String) (buf : List Nat) (n off : Nat)
    (e : Event) (h : parseStep resolve buf n off = StepRes.next e off) :
    ∀ fuel, (parseLoop resolve buf n fuel off).2 = ExitKind.stalled := by
  intro fuel
  induction fuel with
  | zero => rfl
  | succ f ih =>
    simp only [parseLoop, h]
    exact ih

/-- The read loop never ends with a transient errno as its fatal exit. -/
theorem readLoop_exit_not_transient (resolve : Int → Option String) :
    ∀ l, (readLoop resolve l).2 ≠ LoopExit.fatal EINTR ∧
      (readLoop resolve l).2 ≠ LoopExit.fatal EAGAIN := by
  intro l
  induction l with
  | nil => simp [readLoop]
  | cons r rest ih =>
    cases r with
    | rerr e =>
      by_cases h1 : e = EINTR
      · simpa [readLoop, h1] using ih
      · by_cases h2 : e = EAGAIN
        · simpa [readLoop, h1, h2] using ih
        · simp [readLoop, h1, h2]
    | rbytes d =>
      by_cases h0 : d.length = 0
      · simpa [readLoop, h0] using ih
      · simp only [readLoop, h0, if_neg h0]
        cases hp : (parseBuffer resolve d).2 with
        | stalled => simp
        | normal => simpa using ih
        | incomplete => simpa using ih

/-- A prefix of transient read outcomes is skipped by the read loop. -/
theorem readLoop_skip_transient (resolve : Int → Option String) :
    ∀ pre rest, pre.all isTransientErr = true →
      readLoop resolve (pre ++ rest) = readLoop resolve rest := by
  intro pre
  induction pre with
  | nil => intro rest _; rfl
  | cons r pre ih =>
    intro rest hall
    simp only [List.all_cons, Bool.and_eq_true] at hall
    cases r with
    | rbytes d => simp [isTransientErr] at hall
    | rerr e =>
      have he : e = EINTR ∨ e = EAGAIN := by
        have hh := hall.1
        simp only [isTransientErr, Bool.or_eq_true, beq_iff_eq] at hh
        exact hh
      cases he with
      | inl h => simp only [List.cons_append, readLoop, if_pos h]; exact ih rest hall.2
      | inr h =>
        by_cases h1 : e = EINTR
        · simp only [List.cons_append, readLoop, if_pos h1]; exact ih rest hall.2
        · simp only [List.cons_append, readLoop, if_neg h1, if_pos h]; exact ih rest hall.2

-- Claim theorems

/-- C1 (counterexample): a record whose self-reported event_len is 0
(smaller than the 24-byte header) is not treated as a record-local
decode fault: the parse step decodes it and continues at the same
offset, and the parse loop exhausts 100 steps of fuel on a 24-byte
buffer, i.e. the source read loop spins forever instead of terminating. -/
theorem c1_event_len_zero_counterexample :
    stepOffsetOf (parseStep resolveNone c1buf 24 0) = some 0 ∧
    (parseLoop resolveNone c1buf 24 100 0).2 = ExitKind.stalled := by
  exact ⟨by decide, by decide⟩

/-- C1 (amended): the parser performs no validation of event_len.
Whenever the header fits in the bytes read and event_len is 0, the step
decodes the record and leaves the offset unchanged, so the parse loop
never terminates (it stalls for every fuel); however no byte outside the
bytes actually read is ever accessed, and the process does not crash. -/
theorem c1_malformed_length_amended (resolve : Int → Option String) (buf : List Nat)
    (n off fuel : Nat) (h1 : off + headerSize ≤ n)
    (h2 : (decodeMetadata buf off).event_len = 0) :
    stepOffsetOf (parseStep resolve buf n off) = some off ∧
    (parseLoop resolve buf n fuel off).2 = ExitKind.stalled ∧
    parseLoop resolve buf n fuel off = parseLoop resolve (List.take n buf) n fuel off := by
  have hs := parseStep_zero_len resolve buf n off h1 h2
  exact ⟨by rw [hs]; rfl, parseLoop_stall resolve buf n off _ hs fuel,
    (parseLoop_take resolve buf n fuel off).symm⟩

/-- C1 (witness): the amended theorem evaluated on the concrete 24-byte
all-zero buffer. -/
theorem c1_malformed_length_amended_witness :
    (0 + headerSize ≤ 24 ∧ (decodeMetadata c1buf 0).event_len = 0) ∧
    stepOffsetOf (parseStep resolveNone c1buf 24 0) = some 0 ∧
    (parseLoop resolveNone c1buf 24 30 0).2 = ExitKind.stalled ∧
    parseLoop resolveNone c1buf 24 30 0 = parseLoop resolveNone (List.take 24 c1buf) 24 30 0 :=
  ⟨⟨by decide, by decide⟩, c1_malformed_length_amended resolveNone c1buf 24 0 30 (by decide) (by decide)⟩

/-- C2 (counterexample): a record whose self-reported extent (100 bytes)
runs far past the 32 bytes actually read is NOT treated as a hard
implementation error: since its 24-byte header fits, it is decoded as a
normal event and the loop exits normally. -/
theorem c2_overrun_counterexample :
    32 < 0 + (decodeMetadata c2buf 0).event_len ∧
    parseLoop resolveNone c2buf 32 5 0 =
      ([{ pid := 0, kinds := [EventKind.OPEN], pathInfo := "path=unknown" }], ExitKind.normal) := by
  exact ⟨by decide, by decide⟩

/-- C2 (amended): the parser iterates with a running offset advancing by
the self-reported event_len of each record, decoding every record whose
24-byte header lies in the bytes read; a record whose extent runs past
the bytes read is still decoded as a normal event (no hard error), after
which the loop exits normally. -/
theorem c2_offset_advance_amended (resolve : Int → Option String) (buf : List Nat)
    (n off fuel : Nat) (h1 : off + headerSize ≤ n)
    (h2 : n ≤ off + (decodeMetadata buf off).event_len) :
    parseStep resolve buf n off =
      StepRes.next (processRecord resolve (decodeMetadata buf off)).1
        (off + (decodeMetadata buf off).event_len) ∧
    parseLoop resolve buf n (fuel + 2) off =
      ([(processRecord resolve (decodeMetadata buf off)).1], ExitKind.normal) := by
  have hlt : off < n := by unfold headerSize at h1; omega
  have hng : ¬ off + headerSize > n := by omega
  have hs : parseStep resolve buf n off =
      StepRes.next (processRecord resolve (decodeMetadata buf off)).1
        (off + (decodeMetadata buf off).event_len) := by
    unfold parseStep
    simp [hlt, hng]
  refine ⟨hs, ?_⟩
  have hs2 : parseStep resolve buf n (off + (decodeMetadata buf off).event_len) =
      StepRes.finished := by
    unfold parseStep
    have hn : ¬ (off + (decodeMetadata buf off).event_len < n) := by omega
    simp [hn]
  show parseLoop resolve buf n (Nat.succ (Nat.succ fuel)) off = _
  simp only [parseLoop, hs, hs2]

/-- C2 (witness): the amended theorem evaluated on the concrete 32-byte
buffer whose single record reports event_len 100. -/
theorem c2_offset_advance_amended_witness :
    (0 + headerSize ≤ 32 ∧ 32 ≤ 0 + (decodeMetadata c2buf 0).event_len) ∧
    parseStep resolveNone c2buf 32 0 =
      StepRes.next (processRecord resolveNone (decodeMetadata c2buf 0)).1
        (0 + (decodeMetadata c2buf 0).event_len) ∧
    parseLoop resolveNone c2buf 32 (3 + 2) 0 =
      ([(processRecord resolveNone (decodeMetadata c2buf 0)).1], ExitKind.normal) :=
  ⟨⟨by decide, by decide⟩, c2_offset_advance_amended resolveNone c2buf 32 0 3 (by decide) (by decide)⟩

/-- C3: if the mark call with the ATTRIB-bearing mask fails and the
retry with the reduced mask succeeds, the setup returns a successful
actual mask (the reduced mask, possibly widened by the experimental
directory-level ATTRIB mark) instead of propagating the error; the retry
registers exactly the mask containing OPEN, MODIFY and CLOSE_WRITE; and
the outcome is independent of the kernel-version string, which main only
prints. -/
theorem c3_attrib_fallback (v v2 : String) (fanFd : Int)
    (mark : Nat → Nat → String → Except Int Unit) (e : Int)
    (h1 : mark FAN_MARK_ADD mask_metadata_focused testFilePath = Except.error e)
    (h2 : mark FAN_MARK_ADD mask_fallback testFilePath = Except.ok ()) :
    ((programSetup v fanFd mark).1 = Except.ok mask_fallback ∨
      (programSetup v fanFd mark).1 = Except.ok (mask_fallback ||| FAN_ATTRIB)) ∧
    SetupAction.markCall FAN_MARK_ADD mask_fallback testFilePath ∈ (programSetup v fanFd mark).2 ∧
    mask_fallback = FAN_OPEN ||| FAN_MODIFY ||| FAN_CLOSE_WRITE ∧
    programSetup v2 fanFd mark = programSetup v fanFd mark := by
  unfold programSetup setupMarks
  rw [h1, h2]
  cases h3 : mark (FAN_MARK_ADD ||| FAN_MARK_ONLYDIR) FAN_ATTRIB tmpDirPath with
  | ok u => cases u; refine ⟨Or.inr rfl, ?_, rfl, rfl⟩; simp
  | error e3 => refine ⟨Or.inl rfl, ?_, rfl, rfl⟩; simp

/-- C3 (witness): the theorem evaluated on the oracle that rejects
exactly the metadata-focused mask. -/
theorem c3_attrib_fallback_witness :
    (markFailMeta FAN_MARK_ADD mask_metadata_focused testFilePath = Except.error 22 ∧
     markFailMeta FAN_MARK_ADD mask_fallback testFilePath = Except.ok ()) ∧
    ((programSetup "Linux 6" 3 markFailMeta).1 = Except.ok mask_fallback ∨
      (programSetup "Linux 6" 3 markFailMeta).1 = Except.ok (mask_fallback ||| FAN_ATTRIB)) ∧
    SetupAction.markCall FAN_MARK_ADD mask_fallback testFilePath ∈
      (programSetup "Linux 6" 3 markFailMeta).2 ∧
    mask_fallback = FAN_OPEN ||| FAN_MODIFY ||| FAN_CLOSE_WRITE ∧
    programSetup "Linux 5" 3 markFailMeta = programSetup "Linux 6" 3 markFailMeta :=
  ⟨⟨rfl, rfl⟩, c3_attrib_fallback "Linux 6" "Linux 5" 3 markFailMeta 22 rfl rfl⟩

/-- C4: for every decoded record, the subject descriptor actions are
exactly one resolution attempt followed by exactly one close when the
descriptor is valid (non-negative), and nothing otherwise — for every
resolution oracle, i.e. regardless of whether resolution succeeded; so
the descriptor is closed exactly once, after resolution, and never
leaks or double-closes within the processing of the record. -/
theorem c4_close_exactly_once (resolve : Int → Option String) (md : FanotifyEventMetadata) :
    ((processRecord resolve md).2 =
      if md.fd ≥ 0 then [RecordAction.resolveFd md.fd, RecordAction.closeFd md.fd] else []) ∧
    (md.fd ≥ 0 → countCloses md.fd (processRecord resolve md).2 = 1) := by
  unfold processRecord
  by_cases h : md.fd ≥ 0
  · simp [h, countCloses]
  · simp [h, countCloses]

/-- C4 (witness): the theorem evaluated on a record carrying valid
descriptor 5, with a failing resolution oracle. -/
theorem c4_close_exactly_once_witness :
    ((processRecord resolveNone mdC4).2 =
      if mdC4.fd ≥ 0 then [RecordAction.resolveFd mdC4.fd, RecordAction.closeFd mdC4.fd] else []) ∧
    (mdC4.fd ≥ 0 ∧ countCloses mdC4.fd (processRecord resolveNone mdC4).2 = 1) := by
  have h := c4_close_exactly_once resolveNone mdC4
  exact ⟨h.1, by decide, h.2 (by decide)⟩

/-- C5: the decoder tests each known mask bit independently — a kind is
in the decoded list exactly when its bit is set — and reports all
matched kinds together in the single event of the record: the mask with
both MODIFY and CLOSE_WRITE yields one kind list containing both, and
the kinds of the one event produced per record are exactly the decoded
kind set of its mask. -/
theorem c5_multi_bit_kinds (mask : Nat) (resolve : Int → Option String)
    (md : FanotifyEventMetadata) :
    (EventKind.ATTRIB ∈ decodeKinds mask ↔ mask.testBit 2 = true) ∧
    (EventKind.OPEN ∈ decodeKinds mask ↔ mask.testBit 0 = true) ∧
    (EventKind.MODIFY ∈ decodeKinds mask ↔ mask.testBit 1 = true) ∧
    (EventKind.CLOSE_WRITE ∈ decodeKinds mask ↔ mask.testBit 3 = true) ∧
    decodeKinds (FAN_MODIFY ||| FAN_CLOSE_WRITE) = [EventKind.MODIFY, EventKind.CLOSE_WRITE] ∧
    (processRecord resolve md).1.kinds = decodeKinds md.mask := by
  exact ⟨(mem_decodeKinds mask).1, (mem_decodeKinds mask).2.1, (mem_decodeKinds mask).2.2.1,
    (mem_decodeKinds mask).2.2.2, by decide, rfl⟩

/-- C6: a read failing with EINTR or EAGAIN is retried internally (the
loop on the remaining reads is unchanged, and a whole prefix of
transient outcomes is skipped), it is never surfaced as the terminal
exit; a read failing with any other errno terminates the loop with that
errno surfaced exactly once as the fatal exit. -/
theorem c6_read_error_classification (resolve : Int → Option String) (e : Int)
    (rest pre : List ReadResult) :
    (readLoop resolve (ReadResult.rerr e :: rest) =
      if e = EINTR ∨ e = EAGAIN then readLoop resolve rest else ([], LoopExit.fatal e)) ∧
    (pre.all isTransientErr = true → readLoop resolve (pre ++ rest) = readLoop resolve rest) ∧
    (readLoop resolve rest).2 ≠ LoopExit.fatal EINTR ∧
    (readLoop resolve rest).2 ≠ LoopExit.fatal EAGAIN := by
  refine ⟨?_, fun h => readLoop_skip_transient resolve pre rest h,
    (readLoop_exit_not_transient resolve rest).1, (readLoop_exit_not_transient resolve rest).2⟩
  by_cases h1 : e = EINTR
  · simp [readLoop, h1]
  · by_cases h2 : e = EAGAIN
    · simp [readLoop, h1, h2]
    · simp [readLoop, h1, h2]

/-- C6 (witness): the theorem evaluated on errno 13 (non-transient, it
becomes the fatal exit) and on the transient prefix EINTR, EAGAIN
(skipped entirely). -/
theorem c6_read_error_classification_witness :
    ([ReadResult.rerr EINTR, ReadResult.rerr EAGAIN].all isTransientErr = true) ∧
    (readLoop resolveNone (ReadResult.rerr 13 :: []) =
      if (13 : Int) = EINTR ∨ (13 : Int) = EAGAIN then readLoop resolveNone []
      else ([], LoopExit.fatal 13)) ∧
    readLoop resolveNone ([ReadResult.rerr EINTR, ReadResult.rerr EAGAIN] ++ []) =
      readLoop resolveNone [] ∧
    (readLoop resolveNone []).2 ≠ LoopExit.fatal EINTR ∧
    (readLoop resolveNone []).2 ≠ LoopExit.fatal EAGAIN := by
  have h := c6_read_error_classification resolveNone 13 []
    [ReadResult.rerr EINTR, ReadResult.rerr EAGAIN]
  exact ⟨by decide, h.1, h.2.1 (by decide), h.2.2.1, h.2.2.2⟩

/-- C7: a record carrying a valid (non-negative) descriptor whose path
resolution fails still yields its event, whose path info is the raw
descriptor value as fallback, and the parse step continues normally
(nothing is propagated out of the loop). -/
theorem c7_resolution_fallback (resolve : Int → Option String) (buf : List Nat) (n off : Nat)
    (h1 : (decodeMetadata buf off).fd ≥ 0)
    (h2 : resolve (decodeMetadata buf off).fd = none)
    (h3 : off + headerSize ≤ n) :
    (processRecord resolve (decodeMetadata buf off)).1.pathInfo =
      "fd=" ++ toString (decodeMetadata buf off).fd ∧
    parseStep resolve buf n off =
      StepRes.next (processRecord resolve (decodeMetadata buf off)).1
        (off + (decodeMetadata buf off).event_len) := by
  constructor
  · unfold processRecord pathInfoOf
    simp [h1, h2]
  · unfold parseStep
    have hlt : off < n := by unfold headerSize at h3; omega
    have hng : ¬ off + headerSize > n := by omega
    simp [hlt, hng]

/-- C7 (witness): the theorem evaluated on the concrete record with
descriptor 7 and the always-failing resolution oracle. -/
theorem c7_resolution_fallback_witness :
    ((decodeMetadata c7buf 0).fd ≥ 0 ∧ resolveNone (decodeMetadata c7buf 0).fd = none ∧
      0 + headerSize ≤ 24) ∧
    (processRecord resolveNone (decodeMetadata c7buf 0)).1.pathInfo =
      "fd=" ++ toString (decodeMetadata c7buf 0).fd ∧
    parseStep resolveNone c7buf 24 0 =
      StepRes.next (processRecord resolveNone (decodeMetadata c7buf 0)).1
        (0 + (decodeMetadata c7buf 0).event_len) :=
  ⟨⟨by decide, rfl, by decide⟩, c7_resolution_fallback resolveNone c7buf 24 0 (by decide) rfl (by decide)⟩

/-- C8 (counterexample): the decoded kind set is NOT a non-empty subset
of the registered kinds: a record with mask FAN_MODIFY decodes to the
kind MODIFY even though the metadata-focused registration mask does not
contain the MODIFY bit, and a record whose mask holds only an unknown
bit decodes to the empty kind list. -/
theorem c8_subset_counterexample :
    (processRecord resolveNone mdC8).1.kinds = [EventKind.MODIFY] ∧
    mask_metadata_focused &&& FAN_MODIFY = 0 ∧
    (processRecord resolveNone mdC8b).1.kinds = [] := by
  exact ⟨by decide, by decide, by decide⟩

/-- C8 (amended): the kinds of every decoded event are recomputed
defensively from the mask bits of the record (membership is exactly the
corresponding bit, never trust in absence of noise bits), drawn from the
four known kinds only; but the set is not restricted to the registered
mask and may be empty (reported as UNKNOWN). -/
theorem c8_kinds_recompute_amended (resolve : Int → Option String) (md : FanotifyEventMetadata) :
    (processRecord resolve md).1.kinds = decodeKinds md.mask ∧
    (EventKind.MODIFY ∈ decodeKinds md.mask ↔ md.mask.testBit 1 = true) ∧
    decodeKinds 0 = [] := by
  exact ⟨rfl, (mem_decodeKinds md.mask).2.2.1, by decide⟩

/-- C9 (counterexample): the interface does not support six event
kinds: even a mask with all 64 bits set decodes to exactly the four
kinds ATTRIB, OPEN, MODIFY, CLOSE_WRITE, and the bits 0x100 and 0x200
(CREATE and DELETE in the fanotify ABI, undefined in this program)
decode to no kind at all. -/
theorem c9_six_kinds_counterexample :
    decodeKinds (2 ^ 64 - 1) =
      [EventKind.ATTRIB, EventKind.OPEN, EventKind.MODIFY, EventKind.CLOSE_WRITE] ∧
    decodeKinds 256 = [] ∧ decodeKinds 512 = [] := by
  exact ⟨by decide, by decide, by decide⟩

/-- C9 (amended): exactly four event kinds — OPEN (bit 0), MODIFY
(bit 1), ATTRIB (bit 2), CLOSE_WRITE (bit 3) — are supported: each has a
mask bit, the decoder includes the kind exactly when its bit is set, and
the two registration masks (13 = ATTRIB|OPEN|CLOSE_WRITE and
11 = OPEN|MODIFY|CLOSE_WRITE) are built from these bits; CREATE and
DELETE have no mask constant and are never decoded. -/
theorem c9_four_kinds_amended (mask : Nat) :
    (EventKind.OPEN ∈ decodeKinds mask ↔ mask.testBit 0 = true) ∧
    (EventKind.MODIFY ∈ decodeKinds mask ↔ mask.testBit 1 = true) ∧
    (EventKind.ATTRIB ∈ decodeKinds mask ↔ mask.testBit 2 = true) ∧
    (EventKind.CLOSE_WRITE ∈ decodeKinds mask ↔ mask.testBit 3 = true) ∧
    mask_metadata_focused = 13 ∧ mask_fallback = 11 := by
  exact ⟨(mem_decodeKinds mask).2.1, (mem_decodeKinds mask).2.2.1, (mem_decodeKinds mask).1,
    (mem_decodeKinds mask).2.2.2, by decide, by decide⟩

/-- C10: when both the metadata-focused mark and the fallback mark fail,
the setup closes the fanotify session descriptor (last action of its
trace, before returning) and returns the fatal errno of the second
failure. -/
theorem c10_close_session_on_failure (v : String) (fanFd : Int)
    (mark : Nat → Nat → String → Except Int Unit) (e1 e2 : Int)
    (h1 : mark FAN_MARK_ADD mask_metadata_focused testFilePath = Except.error e1)
    (h2 : mark FAN_MARK_ADD mask_fallback testFilePath = Except.error e2) :
    (programSetup v fanFd mark).1 = Except.error e2 ∧
    (programSetup v fanFd mark).2 =
      [SetupAction.markCall FAN_MARK_ADD mask_metadata_focused testFilePath,
       SetupAction.markCall FAN_MARK_ADD mask_fallback testFilePath,
       SetupAction.closeFd fanFd] := by
  unfold programSetup setupMarks
  rw [h1, h2]
  exact ⟨rfl, rfl⟩

/-- C10 (witness): the theorem evaluated on the oracle rejecting every
mark call. -/
theorem c10_close_session_on_failure_witness :
    (markFailAll FAN_MARK_ADD mask_metadata_focused testFilePath = Except.error 1 ∧
     markFailAll FAN_MARK_ADD mask_fallback testFilePath = Except.error 1) ∧
    (programSetup "Linux" 3 markFailAll).1 = Except.error 1 ∧
    (programSetup "Linux" 3 markFailAll).2 =
      [SetupAction.markCall FAN_MARK_ADD mask_metadata_focused testFilePath,
       SetupAction.markCall FAN_MARK_ADD mask_fallback testFilePath,
       SetupAction.closeFd 3] :=
  ⟨⟨rfl, rfl⟩, c10_close_session_on_failure "Linux" 3 markFailAll 1 1 rfl rfl⟩
